import Mathlib

/-!
# service.geo: the bounding-box query of the hotel location store

A shallow embedding of `service.geo/main.go`: the containment predicate
`inRange`, the store scan of `geoServer.BoundedBox`, and the floating-point
operations of the Go language and of package `math` that they call.

Conventions of the embedding:
* a Go pointer to a struct is an `Option`, `none` being the nil pointer;
* a Go function that can hit a run-time panic (nil pointer dereference)
  returns an `Option`, `none` being the panic;
* a Go `error` is an `Option String`, `none` being the nil error.
-/

namespace Geo

/-! ## Floating-point values -/

/-- Modelled from the spec: the coordinate type of `pb.Point` (the generated
package `service.geo/proto` is not part of the sources at hand; the spec says a
Point is "a pair of signed floating-point coordinates"). A value is a NaN, one
of the two infinities, the negative zero, or a finite number; `fin 0` is the
positive zero. Finite values are rationals: every finite IEEE 754 value is one,
and the code only compares and selects values, it never rounds. (Were the
fields 32-bit integers, `float64(x)` would map them exactly onto finite values
of this type.) -/
inductive GoFloat where
  | nan : GoFloat
  | negInf : GoFloat
  | posInf : GoFloat
  | negZero : GoFloat
  | fin (q : ℚ) : GoFloat
  deriving DecidableEq

namespace GoFloat

/-- The numeric value of a float that is neither a NaN nor an infinity; both
zeros have value 0. -/
def finVal : GoFloat → ℚ
  | fin q => q
  | _ => 0

/-- The IEEE 754 comparison of two floats: less, equal, greater, or unordered
(`none`) when either operand is a NaN. The two zeros compare equal. -/
def cmp : GoFloat → GoFloat → Option Ordering
  | nan, _ => none
  | _, nan => none
  | negInf, negInf => some Ordering.eq
  | negInf, _ => some Ordering.lt
  | _, negInf => some Ordering.gt
  | posInf, posInf => some Ordering.eq
  | posInf, _ => some Ordering.gt
  | _, posInf => some Ordering.lt
  | x, y =>
    if x.finVal < y.finVal then some Ordering.lt
    else if x.finVal = y.finVal then some Ordering.eq
    else some Ordering.gt

/-- Go `x < y` on floats. -/
def lt (x y : GoFloat) : Bool :=
  match cmp x y with
  | some Ordering.lt => true
  | _ => false

/-- Go `x > y` on floats. -/
def gt (x y : GoFloat) : Bool :=
  match cmp x y with
  | some Ordering.gt => true
  | _ => false

/-- Go `x <= y` on floats. -/
def le (x y : GoFloat) : Bool :=
  match cmp x y with
  | some Ordering.lt => true
  | some Ordering.eq => true
  | _ => false

/-- Go `x >= y` on floats. -/
def ge (x y : GoFloat) : Bool :=
  match cmp x y with
  | some Ordering.gt => true
  | some Ordering.eq => true
  | _ => false

/-- Go `x == y` on floats. -/
def eq (x y : GoFloat) : Bool :=
  match cmp x y with
  | some Ordering.eq => true
  | _ => false

/-- Go `math.IsNaN`. -/
def IsNaN : GoFloat → Bool
  | nan => true
  | _ => false

/-- Go `math.Inf(sign)`: positive infinity if `sign >= 0`, else negative. -/
def Inf (sign : Int) : GoFloat :=
  if sign ≥ 0 then posInf else negInf

/-- Go `math.IsInf(f, sign)`, in the source
`sign >= 0 && f > MaxFloat64 || sign <= 0 && f < -MaxFloat64`: the only value
above the largest finite float is positive infinity, the only one below its
negation is negative infinity. -/
def IsInf (f : GoFloat) (sign : Int) : Bool :=
  (decide (sign ≥ 0) && decide (f = posInf)) ||
  (decide (sign ≤ 0) && decide (f = negInf))

/-- Go `math.Signbit`: whether the sign bit is set (true for the negative
zero; a NaN is taken with a clear sign bit). -/
def Signbit : GoFloat → Bool
  | nan => false
  | negInf => true
  | posInf => false
  | negZero => true
  | fin q => decide (q < 0)

/-- Go `math.Min` (the portable implementation of the standard library):
`Min(x, -Inf) = Min(-Inf, x) = -Inf`, `Min(x, NaN) = Min(NaN, x) = NaN`,
`Min(-0, ±0) = Min(±0, -0) = -0`. -/
def Min (x y : GoFloat) : GoFloat :=
  if IsInf x (-1) || IsInf y (-1) then Inf (-1)
  else if IsNaN x || IsNaN y then nan
  else if eq x (fin 0) && eq x y then (if Signbit x then x else y)
  else if lt x y then x
  else y

/-- Go `math.Max` (the portable implementation of the standard library):
`Max(x, +Inf) = Max(+Inf, x) = +Inf`, `Max(x, NaN) = Max(NaN, x) = NaN`,
`Max(+0, ±0) = Max(±0, +0) = +0`, `Max(-0, -0) = -0`. -/
def Max (x y : GoFloat) : GoFloat :=
  if IsInf x 1 || IsInf y 1 then Inf 1
  else if IsNaN x || IsNaN y then nan
  else if eq x (fin 0) && eq x y then (if Signbit x then y else x)
  else if gt x y then x
  else y

/-- Go conversion `float64(x)` of a floating-point coordinate: exact, it keeps
NaN, the infinities and the sign of zero. -/
def float64 (x : GoFloat) : GoFloat := x

end GoFloat

/-! ## Data model -/

/-- Modelled from the spec: `pb.Point`, "a pair of signed floating-point
coordinates, latitude and longitude" (the generated package is not part of the
sources at hand). -/
structure Point where
  Latitude : GoFloat
  Longitude : GoFloat
  deriving DecidableEq

/-- Modelled from the spec: `pb.Rectangle`, "two Points, lo and hi"; in the
generated Go code both are pointers, nil when the corner is absent from the
request. -/
structure Rectangle where
  Lo : Option Point
  Hi : Option Point
  deriving DecidableEq

/-- Modelled from the spec: `pb.Reply`, "a sequence of 32-bit integer
identifiers"; the nil slice of a fresh reply is the empty list. -/
structure Reply where
  HotelIds : List Int
  deriving DecidableEq

/-- The Go struct `location`: an `int32` identifier (stored and copied, never
computed with) and a pointer to a point, nil when the dataset record has no
`Point` member. -/
structure location where
  HotelID : Int
  Point : Option Point
  deriving DecidableEq

/-- The Go struct `geoServer`. -/
structure geoServer where
  locations : List location
  deriving DecidableEq

/-! ## The containment predicate -/

/-- Go `inRange(point, rect)`. The corners `rect.Lo`, `rect.Hi` and then
`point` are dereferenced; a nil pointer among them is a run-time panic
(`none`). -/
def inRange (point : Option Point) (rect : Rectangle) : Option Bool :=
  match rect.Lo, rect.Hi, point with
  | some lo, some hi, some p =>
    let left := GoFloat.Min (GoFloat.float64 lo.Longitude) (GoFloat.float64 hi.Longitude)
    let right := GoFloat.Max (GoFloat.float64 lo.Longitude) (GoFloat.float64 hi.Longitude)
    let top := GoFloat.Max (GoFloat.float64 lo.Latitude) (GoFloat.float64 hi.Latitude)
    let bottom := GoFloat.Min (GoFloat.float64 lo.Latitude) (GoFloat.float64 hi.Latitude)
    if GoFloat.ge (GoFloat.float64 p.Longitude) left &&
        GoFloat.le (GoFloat.float64 p.Longitude) right &&
        GoFloat.ge (GoFloat.float64 p.Latitude) bottom &&
        GoFloat.le (GoFloat.float64 p.Latitude) top then
      some true
    else
      some false
  | _, _, _ => none

/-! ## The query handler -/

/-- Go `metadata.MD` as the handler uses it: a map from key to value; looking
up a missing key, or any key in the nil map, gives the zero value `""`. -/
abbrev MD := List (String × String)

/-- Go map indexing `md[key]`. -/
def MD.get (md : MD) (key : String) : String :=
  (md.lookup key).getD ""

/-- Go `context.Context` as far as the handler reads it: the request metadata
attached to it, if any. -/
structure Context where
  md : Option MD

/-- Go `metadata.FromContext(ctx)`: the metadata and whether it was present;
without metadata the map is nil (here the empty map). -/
def FromContext (ctx : Context) : MD × Bool :=
  match ctx.md with
  | some md => (md, true)
  | none => ([], false)

/-- Go `trace.Tracer{TraceID: ...}`. -/
structure Tracer where
  TraceID : String

/-- Modelled from the spec: the tracing collaborator (package `trace` of the
repository is not part of the sources at hand). The spec says the handler
"reports entered at the start and exited with a timestamp at the end,
regardless of outcome"; the two reports `t.In(service, from)` and
`t.Out(from, service, start)` are taken as parameters, arbitrary transitions of
the collaborator's state `W`. -/
structure TraceOps (W : Type) where
  In : Tracer → String → String → W → W
  Out : Tracer → String → String → Nat → W → W

/-- The package variable `serverName`. -/
def serverName : String := "service.geo"

/-- What a call of the handler leaves behind: the receiver after the call, the
state of the tracing collaborator, and the returned pair `(reply, error)`, or
`none` when the call panicked. -/
structure Outcome (W : Type) where
  server : geoServer
  world : W
  result : Option (Reply × Option String)

/-- The loop `for _, loc := range s.locations { if inRange(loc.Point, rect)
{ reply.HotelIds = append(reply.HotelIds, loc.HotelID) } }` run on the records
still to visit, from the reply built so far. A panic of `inRange` ends it. -/
def rangeLoop (rect : Rectangle) : List location → Reply → Option Reply
  | [], reply => some reply
  | loc :: rest, reply =>
    match inRange loc.Point rect with
    | none => none
    | some true => rangeLoop rect rest { reply with HotelIds := reply.HotelIds ++ [loc.HotelID] }
    | some false => rangeLoop rect rest reply

/-- Go `(s *geoServer) BoundedBox(ctx, rect)`. `now` is the value of
`time.Now()`, read when the `defer` statement is executed; the deferred
`t.Out` runs when the function is left, by return or by panic. The receiver is
only read. -/
def geoServer.BoundedBox {W : Type} (ops : TraceOps W) (now : Nat) (s : geoServer) (w : W)
    (ctx : Context) (rect : Rectangle) : Outcome W :=
  let md := (FromContext ctx).1
  let t : Tracer := { TraceID := md.get "traceID" }
  let w1 := ops.In t serverName (md.get "from") w
  let deferred := ops.Out t (md.get "from") serverName now
  let reply : Reply := { HotelIds := [] }
  match rangeLoop rect s.locations reply with
  | some reply => { server := s, world := deferred w1, result := some (reply, none) }
  | none => { server := s, world := deferred w1, result := none }

/-! ## Specification-side definitions -/

/-- The identifiers of the records whose point is contained in the rectangle,
one per matching record, in store order. -/
def matchingIds (locations : List location) (rect : Rectangle) : List Int :=
  (locations.filter (fun loc => inRange loc.Point rect = some true)).map location.HotelID

/-- The rectangle with its two corners exchanged. -/
def Rectangle.swap (rect : Rectangle) : Rectangle :=
  { Lo := rect.Hi, Hi := rect.Lo }

/-- The tracing collaborator that records nothing. -/
def noTrace : TraceOps Unit :=
  { In := fun _ _ _ w => w, Out := fun _ _ _ _ w => w }

/-! ## Facts about the floating-point operations -/

namespace GoFloat

theorem le_fin_fin (a b : ℚ) : le (fin a) (fin b) = decide (a ≤ b) := by
  simp only [le, cmp, finVal]
  split_ifs with h1 h2
  · simp [le_of_lt h1]
  · simp [h2]
  · have : ¬ a ≤ b := fun h => h1 (lt_of_le_of_ne h h2)
    simp [this]

theorem le_negZero_fin (b : ℚ) : le negZero (fin b) = decide (0 ≤ b) := by
  simp only [le, cmp, finVal]
  split_ifs with h1 h2
  · simp [le_of_lt h1]
  · simp [← h2]
  · have : ¬ 0 ≤ b := fun h => h1 (lt_of_le_of_ne h h2)
    simp [this]

theorem le_fin_negZero (a : ℚ) : le (fin a) negZero = decide (a ≤ 0) := by
  simp only [le, cmp, finVal]
  split_ifs with h1 h2
  · simp [le_of_lt h1]
  · simp [h2]
  · have : ¬ a ≤ 0 := fun h => h1 (lt_of_le_of_ne h h2)
    simp [this]

theorem ge_fin_fin (a b : ℚ) : ge (fin a) (fin b) = decide (b ≤ a) := by
  simp only [ge, cmp, finVal]
  split_ifs with h1 h2
  · simp [h1]
  · simp [h2]
  · simp [le_of_not_lt h1]

theorem ge_negZero_fin (b : ℚ) : ge negZero (fin b) = decide (b ≤ 0) := by
  simp only [ge, cmp, finVal]
  split_ifs with h1 h2
  · simp [h1]
  · simp [← h2]
  · simp [le_of_not_lt h1]

theorem ge_fin_negZero (a : ℚ) : ge (fin a) negZero = decide (0 ≤ a) := by
  simp only [ge, cmp, finVal]
  split_ifs with h1 h2
  · simp [h1]
  · simp [h2]
  · simp [le_of_not_lt h1]

theorem ge_eq_le (x y : GoFloat) : ge x y = le y x := by
  cases x <;> cases y <;>
    first
    | simp only [ge_fin_fin, le_fin_fin, ge_negZero_fin, le_negZero_fin, ge_fin_negZero,
        le_fin_negZero]
    | rfl

theorem le_trans {x y z : GoFloat} (hxy : le x y = true) (hyz : le y z = true) :
    le x z = true := by
  cases x <;> cases y <;> cases z <;>
    first
    | rfl
    | (exfalso; revert hxy; decide)
    | (exfalso; revert hyz; decide)
    | exact hyz
    | exact hxy
    | (simp [le, cmp] at hxy; done)
    | (simp [le, cmp] at hyz; done)
    | (simp only [le_fin_fin, le_negZero_fin, le_fin_negZero, decide_eq_true_eq] at *
       linarith)

theorem lt_fin_fin (a b : ℚ) : lt (fin a) (fin b) = decide (a < b) := by
  simp only [lt, cmp, finVal]
  split_ifs with h1 h2 <;> simp [h1]

theorem lt_negZero_fin (b : ℚ) : lt negZero (fin b) = decide (0 < b) := by
  simp only [lt, cmp, finVal]
  split_ifs with h1 h2 <;> simp [h1]

theorem lt_fin_negZero (a : ℚ) : lt (fin a) negZero = decide (a < 0) := by
  simp only [lt, cmp, finVal]
  split_ifs with h1 h2 <;> simp [h1]

theorem gt_fin_fin (a b : ℚ) : gt (fin a) (fin b) = decide (b < a) := by
  simp only [gt, cmp, finVal]
  split_ifs with h1 h2
  · simp [le_of_lt h1]
  · simp [h2]
  · simp [lt_of_le_of_ne (le_of_not_lt h1) (Ne.symm h2)]

theorem gt_negZero_fin (b : ℚ) : gt negZero (fin b) = decide (b < 0) := by
  simp only [gt, cmp, finVal]
  split_ifs with h1 h2
  · simp [le_of_lt h1]
  · simp [← h2]
  · simp [lt_of_le_of_ne (le_of_not_lt h1) (Ne.symm h2)]

theorem gt_fin_negZero (a : ℚ) : gt (fin a) negZero = decide (0 < a) := by
  simp only [gt, cmp, finVal]
  split_ifs with h1 h2
  · simp [le_of_lt h1]
  · simp [h2]
  · simp [lt_of_le_of_ne (le_of_not_lt h1) (Ne.symm h2)]

theorem eq_fin_fin (a b : ℚ) : eq (fin a) (fin b) = decide (a = b) := by
  simp only [eq, cmp, finVal]
  split_ifs with h1 h2
  · simp [ne_of_lt h1]
  · simp [h2]
  · simp [h2]

theorem eq_negZero_fin (b : ℚ) : eq negZero (fin b) = decide (b = 0) := by
  simp only [eq, cmp, finVal]
  split_ifs with h1 h2
  · simp [ne_of_gt h1]
  · simp [← h2]
  · simp [Ne.symm h2]

theorem eq_fin_negZero (a : ℚ) : eq (fin a) negZero = decide (a = 0) := by
  simp only [eq, cmp, finVal]
  split_ifs with h1 h2
  · simp [ne_of_lt h1]
  · simp [h2]
  · simp [h2]

theorem Min_fin_fin (a b : ℚ) : Min (fin a) (fin b) = if a < b then fin a else fin b := by
  simp only [Min, IsInf, IsNaN, eq_fin_fin, lt_fin_fin, Signbit]
  by_cases h : a < b
  · have h1 : a ≠ b := ne_of_lt h
    simp [h, h1]
  · by_cases h0 : a = 0 ∧ a = b
    · obtain ⟨ha, hb⟩ := h0
      subst ha
      subst hb
      simp
    · simp [h]
      intro ha hb
      exact absurd ⟨ha, hb⟩ h0

theorem Max_fin_fin (a b : ℚ) : Max (fin a) (fin b) = if b < a then fin a else fin b := by
  simp only [Max, IsInf, IsNaN, eq_fin_fin, gt_fin_fin, Signbit]
  by_cases h : b < a
  · have h1 : a ≠ b := ne_of_gt h
    simp [h, h1]
  · by_cases h0 : a = 0 ∧ a = b
    · obtain ⟨ha, hb⟩ := h0
      subst ha
      subst hb
      simp
    · simp [h]
      intro ha hb
      exact absurd ⟨ha, hb⟩ h0

theorem Min_negZero_fin (b : ℚ) : Min negZero (fin b) = if 0 ≤ b then negZero else fin b := by
  simp only [Min, IsInf, IsNaN, eq_negZero_fin, lt_negZero_fin, Signbit]
  rcases lt_trichotomy b 0 with h | h | h
  · simp [not_le.mpr h, ne_of_lt h, not_lt.mpr (le_of_lt h)]
  · subst h; simp
  · simp [le_of_lt h, h]

theorem Min_fin_negZero (a : ℚ) : Min (fin a) negZero = if 0 ≤ a then negZero else fin a := by
  simp only [Min, IsInf, IsNaN, eq_fin_fin, eq_fin_negZero, lt_fin_negZero, Signbit]
  rcases lt_trichotomy a 0 with h | h | h
  · simp [not_le.mpr h, ne_of_lt h, h]
  · subst h; simp
  · simp [le_of_lt h, not_lt.mpr (le_of_lt h), ne_of_gt h]

theorem Max_negZero_fin (b : ℚ) : Max negZero (fin b) = if b < 0 then negZero else fin b := by
  simp only [Max, IsInf, IsNaN, eq_negZero_fin, gt_negZero_fin, Signbit]
  rcases lt_trichotomy b 0 with h | h | h
  · simp [h, ne_of_lt h]
  · subst h; simp
  · simp [not_lt.mpr (le_of_lt h)]

theorem Max_fin_negZero (a : ℚ) : Max (fin a) negZero = if a < 0 then negZero else fin a := by
  simp only [Max, IsInf, IsNaN, eq_fin_fin, eq_fin_negZero, gt_fin_negZero, Signbit]
  rcases lt_trichotomy a 0 with h | h | h
  · simp [h, ne_of_lt h, not_lt.mpr (le_of_lt h)]
  · subst h; simp
  · simp [h, not_lt.mpr (le_of_lt h), ne_of_gt h]

theorem Min_comm (x y : GoFloat) : Min x y = Min y x := by
  cases x <;> cases y <;>
    first
    | rfl
    | (simp only [Min_fin_fin]
       rename_i a b
       rcases lt_trichotomy a b with h | h | h
       · simp [h, not_lt.mpr (le_of_lt h)]
       · subst h; simp
       · simp [h, not_lt.mpr (le_of_lt h)])
    | simp only [Min_negZero_fin, Min_fin_negZero]
    | simp [Min, IsInf, IsNaN, Inf, eq, lt, cmp, Signbit]

theorem Max_comm (x y : GoFloat) : Max x y = Max y x := by
  cases x <;> cases y <;>
    first
    | rfl
    | (simp only [Max_fin_fin]
       rename_i a b
       rcases lt_trichotomy a b with h | h | h
       · simp [h, not_lt.mpr (le_of_lt h)]
       · subst h; simp
       · simp [h, not_lt.mpr (le_of_lt h)])
    | simp only [Max_negZero_fin, Max_fin_negZero]
    | simp [Max, IsInf, IsNaN, Inf, eq, gt, cmp, Signbit]

theorem Min_self (x : GoFloat) : Min x x = x := by
  cases x <;> first | rfl | simp [Min_fin_fin]

theorem Max_self (x : GoFloat) : Max x x = x := by
  cases x <;> first | rfl | simp [Max_fin_fin]

theorem ge_nan_right (x : GoFloat) : ge x nan = false := by
  cases x <;> rfl

theorem le_nan_right (x : GoFloat) : le x nan = false := by
  cases x <;> rfl

theorem le_nan_left (x : GoFloat) : le nan x = false := by
  cases x <;> rfl

theorem ge_nan_left (x : GoFloat) : ge nan x = false := by
  cases x <;> rfl

/-- Of the two normalized bounds of an axis, at least one is a NaN as soon as
one of the two corner coordinates is: `Min` escapes a NaN only through a
negative infinity, `Max` only through a positive one. -/
theorem Min_or_Max_nan (x y : GoFloat) (h : x = nan ∨ y = nan) :
    Min x y = nan ∨ Max x y = nan := by
  rcases h with h | h <;> subst h
  · cases y <;> first | (left; rfl) | (right; rfl)
  · cases x <;> first | (left; rfl) | (right; rfl)

/-- No value lies between the normalized bounds of an axis one of whose corner
coordinates is a NaN. -/
theorem between_nan (x y p : GoFloat) (h : x = nan ∨ y = nan) :
    (ge p (Min x y) && le p (Max x y)) = false := by
  rcases Min_or_Max_nan x y h with h1 | h1
  · rw [h1, ge_nan_right]; rfl
  · rw [h1, le_nan_right]; simp

/-- Both `p >= x` and `p <= x` hold exactly when `p == x`. -/
theorem ge_and_le_eq (p x : GoFloat) : (ge p x && le p x) = eq p x := by
  cases p <;> cases x <;>
    first
    | rfl
    | (simp only [ge_fin_fin, le_fin_fin, eq_fin_fin, ge_negZero_fin, le_negZero_fin,
        eq_negZero_fin, ge_fin_negZero, le_fin_negZero, eq_fin_negZero]
       rw [Bool.eq_iff_iff]
       simp only [Bool.and_eq_true, decide_eq_true_eq]
       constructor
       · rintro ⟨h1, h2⟩; linarith
       · intro h; subst h; simp)

/-- Away from NaN and the two zeros, `==` is identity of values. -/
theorem eq_iff_same (p x : GoFloat) (hnan : x ≠ nan) (hpos : x ≠ fin 0) (hneg : x ≠ negZero) :
    eq p x = true ↔ p = x := by
  cases p <;> cases x <;>
    first
    | exact absurd rfl hnan
    | exact absurd rfl hneg
    | (simp only [eq_fin_fin, eq_negZero_fin, eq_fin_negZero, decide_eq_true_eq]
       constructor
       · intro h
         first
         | (subst h; exact absurd rfl hpos)
         | rw [h]
       · intro h
         injection h)
    | (clear hnan hpos hneg; decide)
    | simp [eq, cmp]

end GoFloat

/-! ## Facts about the scan -/

theorem inRange_present (p lo hi : Point) :
    inRange (some p) { Lo := some lo, Hi := some hi } =
      some (GoFloat.le (GoFloat.Min lo.Longitude hi.Longitude) p.Longitude &&
        GoFloat.le p.Longitude (GoFloat.Max lo.Longitude hi.Longitude) &&
        GoFloat.le (GoFloat.Min lo.Latitude hi.Latitude) p.Latitude &&
        GoFloat.le p.Latitude (GoFloat.Max lo.Latitude hi.Latitude)) := by
  simp only [inRange, GoFloat.float64, GoFloat.ge_eq_le]
  split_ifs with h
  · rw [h]
  · rw [Bool.not_eq_true] at h
    rw [h]

theorem inRange_isSome_iff (point : Option Point) (rect : Rectangle) :
    (inRange point rect).isSome = (rect.Lo.isSome && rect.Hi.isSome && point.isSome) := by
  obtain ⟨lo, hi⟩ := rect
  cases lo <;> cases hi <;> cases point <;> simp [inRange]
  split_ifs <;> rfl

/-- The loop appends to the reply built so far the identifiers of the matching
records among those still to visit, unless `inRange` panics on one of them. -/
theorem rangeLoop_eq (rect : Rectangle) (locs : List location) (reply : Reply) :
    rangeLoop rect locs reply =
      if locs.all (fun loc => (inRange loc.Point rect).isSome) then
        some { HotelIds := reply.HotelIds ++ matchingIds locs rect }
      else none := by
  induction locs generalizing reply with
  | nil => simp [rangeLoop, matchingIds]
  | cons loc rest ih =>
    simp only [rangeLoop, matchingIds, List.all_cons]
    cases h : inRange loc.Point rect with
    | none => simp
    | some b =>
      cases b
      · simp only [ih, matchingIds]
        simp [List.filter_cons, h]
      · simp only [ih, matchingIds]
        simp [List.filter_cons, h]

theorem BoundedBox_result {W : Type} (ops : TraceOps W) (now : Nat) (s : geoServer) (w : W)
    (ctx : Context) (rect : Rectangle) :
    (s.BoundedBox ops now w ctx rect).result =
      if s.locations.all (fun loc => (inRange loc.Point rect).isSome) then
        some ({ HotelIds := matchingIds s.locations rect }, none)
      else none := by
  simp only [geoServer.BoundedBox, rangeLoop_eq]
  split_ifs with h
  · simp
  · rfl

theorem BoundedBox_server {W : Type} (ops : TraceOps W) (now : Nat) (s : geoServer) (w : W)
    (ctx : Context) (rect : Rectangle) :
    (s.BoundedBox ops now w ctx rect).server = s := by
  simp only [geoServer.BoundedBox]
  split <;> rfl

theorem rangeLoop_congr (r1 r2 : Rectangle) (h : ∀ point, inRange point r1 = inRange point r2)
    (locs : List location) (reply : Reply) :
    rangeLoop r1 locs reply = rangeLoop r2 locs reply := by
  induction locs generalizing reply with
  | nil => rfl
  | cons loc rest ih => simp only [rangeLoop, h, ih]

theorem inRange_swap_eq (point : Option Point) (rect : Rectangle) :
    inRange point rect.swap = inRange point rect := by
  obtain ⟨lo, hi⟩ := rect
  cases lo <;> cases hi <;> cases point <;> try rfl
  simp only [Rectangle.swap, inRange_present]
  rename_i lo hi p
  rw [GoFloat.Min_comm hi.Longitude, GoFloat.Max_comm hi.Longitude,
    GoFloat.Min_comm hi.Latitude, GoFloat.Max_comm hi.Latitude]

theorem all_isSome_of_present (locs : List location) (lo hi : Point)
    (h : ∀ loc ∈ locs, loc.Point ≠ none) :
    locs.all (fun loc => (inRange loc.Point { Lo := some lo, Hi := some hi }).isSome) = true := by
  rw [List.all_eq_true]
  intro loc hloc
  rw [inRange_isSome_iff]
  cases hp : loc.Point with
  | none => exact absurd hp (h loc hloc)
  | some p => rfl

/-! ## The claims -/

open GoFloat

/-- C1: for a present point and a rectangle with both corners present,
`inRange` returns a value, and the value is true exactly when
`Min(lo.lon, hi.lon) <= p.lon <= Max(lo.lon, hi.lon)` and
`Min(lo.lat, hi.lat) <= p.lat <= Max(lo.lat, hi.lat)`, all four comparisons being
the inclusive `<=` of Go. -/
theorem inRange_iff_bounds (p lo hi : Point) :
    (∃ b, inRange (some p) { Lo := some lo, Hi := some hi } = some b) ∧
    (inRange (some p) { Lo := some lo, Hi := some hi } = some true ↔
      (le (Min lo.Longitude hi.Longitude) p.Longitude = true ∧
        le p.Longitude (Max lo.Longitude hi.Longitude) = true) ∧
      (le (Min lo.Latitude hi.Latitude) p.Latitude = true ∧
        le p.Latitude (Max lo.Latitude hi.Latitude) = true)) := by
  rw [inRange_present]
  refine ⟨⟨_, rfl⟩, ?_⟩
  simp only [Option.some.injEq, Bool.and_eq_true, and_assoc]

/-- C2: the identifier sequence returned by `BoundedBox` is the store filtered
by `inRange(record.Point, rect)` and mapped to `HotelID` (one identifier per
matching record, duplicates kept, store order), with a nil error; the call
returns unless `inRange` panics on a record, and then nothing is returned. -/
theorem BoundedBox_eq_filter_map {W : Type} (ops : TraceOps W) (now : Nat) (s : geoServer)
    (w : W) (ctx : Context) (rect : Rectangle) :
    (s.BoundedBox ops now w ctx rect).result =
      if s.locations.all (fun loc => (inRange loc.Point rect).isSome) then
        some ({ HotelIds := (s.locations.filter
          (fun loc => inRange loc.Point rect = some true)).map location.HotelID }, none)
      else none := by
  rw [BoundedBox_result]
  rfl

/-- C3, as stated, fails: on the store the loader builds from a record without
a `Point` member the query panics instead of returning, `inRange` has no value
on the nil point, and neither has it on a rectangle with an absent corner. -/
theorem BoundedBox_panics_on_nil :
    (geoServer.BoundedBox noTrace 0 { locations := [{ HotelID := 1, Point := none }] } ()
        { md := none }
        { Lo := some { Latitude := fin 0, Longitude := fin 0 },
          Hi := some { Latitude := fin 1, Longitude := fin 1 } }).result = none ∧
    inRange none
        { Lo := some { Latitude := fin 0, Longitude := fin 0 },
          Hi := some { Latitude := fin 1, Longitude := fin 1 } } = none ∧
    (geoServer.BoundedBox noTrace 0
        { locations := [{ HotelID := 1, Point := some { Latitude := fin 0, Longitude := fin 0 } }] }
        () { md := none }
        { Lo := none, Hi := some { Latitude := fin 1, Longitude := fin 1 } }).result = none := by
  decide

/-- C3, amended: on a store all of whose records have a point (its coordinates
may be the zero defaults) and a rectangle with both corners present,
`BoundedBox` returns a reply with a nil error, and `inRange` has a value on
every present point. -/
theorem BoundedBox_total_of_present {W : Type} (ops : TraceOps W) (now : Nat) (s : geoServer)
    (w : W) (ctx : Context) (lo hi : Point)
    (hpts : ∀ loc ∈ s.locations, loc.Point ≠ none) :
    (∃ reply, (s.BoundedBox ops now w ctx { Lo := some lo, Hi := some hi }).result =
        some (reply, none)) ∧
    ∀ p : Point, ∃ b, inRange (some p) { Lo := some lo, Hi := some hi } = some b := by
  constructor
  · rw [BoundedBox_result, all_isSome_of_present _ _ _ hpts]
    exact ⟨_, rfl⟩
  · intro p
    rw [inRange_present]
    exact ⟨_, rfl⟩

/-- Witness of the amended C3 on a one-record store whose point has the zero
default coordinates. -/
theorem BoundedBox_total_of_present_witness :
    (∃ reply, (geoServer.BoundedBox noTrace 0
        { locations := [{ HotelID := 7, Point := some { Latitude := fin 0, Longitude := fin 0 } }] }
        () { md := none }
        { Lo := some { Latitude := fin 0, Longitude := fin 0 },
          Hi := some { Latitude := fin 1, Longitude := fin 1 } }).result = some (reply, none)) ∧
    ∀ p : Point, ∃ b, inRange (some p)
        { Lo := some { Latitude := fin 0, Longitude := fin 0 },
          Hi := some { Latitude := fin 1, Longitude := fin 1 } } = some b :=
  BoundedBox_total_of_present noTrace 0
    { locations := [{ HotelID := 7, Point := some { Latitude := fin 0, Longitude := fin 0 } }] }
    () { md := none } { Latitude := fin 0, Longitude := fin 0 }
    { Latitude := fin 1, Longitude := fin 1 } (by decide)

/-- C4: exchanging the corners `Lo` and `Hi` of the rectangle changes neither
the outcome of `inRange` on any point nor what `BoundedBox` returns on any
store. -/
theorem inRange_swap (rect : Rectangle) :
    (∀ point : Option Point, inRange point rect.swap = inRange point rect) ∧
    ∀ (W : Type) (ops : TraceOps W) (now : Nat) (s : geoServer) (w : W) (ctx : Context),
      (s.BoundedBox ops now w ctx rect.swap).result = (s.BoundedBox ops now w ctx rect).result := by
  refine ⟨fun point => inRange_swap_eq point rect, ?_⟩
  intro W ops now s w ctx
  simp only [geoServer.BoundedBox,
    rangeLoop_congr rect.swap rect (fun point => inRange_swap_eq point rect)]

/-- C5: when one of the six coordinates (of the point, of the corner `Lo`, of
the corner `Hi`) is a NaN, `inRange` returns false whatever the other five are,
infinities included; `Min(NaN, -Inf)` is `-Inf` and `Max(NaN, +Inf)` is `+Inf`,
as package `math` has them. -/
theorem inRange_nan_false (p lo hi : Point)
    (h : p.Latitude = nan ∨ p.Longitude = nan ∨ lo.Latitude = nan ∨ lo.Longitude = nan ∨
      hi.Latitude = nan ∨ hi.Longitude = nan) :
    inRange (some p) { Lo := some lo, Hi := some hi } = some false ∧
    Min nan negInf = negInf ∧ Max nan posInf = posInf := by
  refine ⟨?_, rfl, rfl⟩
  rw [inRange_present]
  have hlon := between_nan lo.Longitude hi.Longitude p.Longitude
  have hlat := between_nan lo.Latitude hi.Latitude p.Latitude
  rw [ge_eq_le] at hlon hlat
  rcases h with h | h | h | h | h | h
  · rw [h, le_nan_right]; simp
  · rw [h, le_nan_right]; simp
  · rw [Bool.and_assoc, hlat (Or.inl h)]; simp
  · rw [hlon (Or.inl h)]; simp
  · rw [Bool.and_assoc, hlat (Or.inr h)]; simp
  · rw [hlon (Or.inr h)]; simp

/-- Witness of C5 where the NaN longitude of `Lo` meets a negative infinity in
`Hi`, so that the left bound is `-Inf` and not a NaN. -/
theorem inRange_nan_false_witness :
    inRange (some { Latitude := fin 0, Longitude := negInf })
      { Lo := some { Latitude := negInf, Longitude := nan },
        Hi := some { Latitude := posInf, Longitude := negInf } } = some false ∧
    Min nan negInf = negInf ∧ Max nan posInf = posInf :=
  inRange_nan_false { Latitude := fin 0, Longitude := negInf }
    { Latitude := negInf, Longitude := nan } { Latitude := posInf, Longitude := negInf }
    (Or.inr (Or.inr (Or.inr (Or.inl rfl))))

/-- C6: on the degenerate rectangle whose two corners are both
`(lat = x, lon = y)`, `inRange` is true exactly when `p.lat == x` and
`p.lon == y`, with the `==` of Go on floats. -/
theorem inRange_degenerate (x y : GoFloat) (p : Point) :
    inRange (some p)
        { Lo := some { Latitude := x, Longitude := y },
          Hi := some { Latitude := x, Longitude := y } } = some true ↔
      eq p.Latitude x = true ∧ eq p.Longitude y = true := by
  rw [inRange_present]
  simp only [Min_self, Max_self, ← ge_eq_le p.Longitude, ← ge_eq_le p.Latitude]
  rw [Bool.and_assoc, ge_and_le_eq, ge_and_le_eq]
  simp only [Option.some.injEq, Bool.and_eq_true]
  exact and_comm

/-- C7: when the normalized bounds of the rectangle enclose the coordinates of
every record of the store, `BoundedBox` returns, with a nil error, the
identifiers of all records in store order, as many as the store has records. -/
theorem BoundedBox_enclosing_all {W : Type} (ops : TraceOps W) (now : Nat) (s : geoServer)
    (w : W) (ctx : Context) (lo hi : Point)
    (h : ∀ loc ∈ s.locations, ∃ p, loc.Point = some p ∧
      (le (Min lo.Longitude hi.Longitude) p.Longitude = true ∧
        le p.Longitude (Max lo.Longitude hi.Longitude) = true) ∧
      (le (Min lo.Latitude hi.Latitude) p.Latitude = true ∧
        le p.Latitude (Max lo.Latitude hi.Latitude) = true)) :
    ∃ reply, (s.BoundedBox ops now w ctx { Lo := some lo, Hi := some hi }).result =
        some (reply, none) ∧
      reply.HotelIds = s.locations.map location.HotelID ∧
      reply.HotelIds.length = s.locations.length := by
  have hin : ∀ loc ∈ s.locations,
      inRange loc.Point { Lo := some lo, Hi := some hi } = some true := by
    intro loc hloc
    obtain ⟨p, hp, ⟨h1, h2⟩, h3, h4⟩ := h loc hloc
    rw [hp, inRange_present, h1, h2, h3, h4]
    rfl
  have hall : s.locations.all
      (fun loc => (inRange loc.Point { Lo := some lo, Hi := some hi }).isSome) = true := by
    rw [List.all_eq_true]
    intro loc hloc
    rw [hin loc hloc]
    rfl
  have hfilter : s.locations.filter
      (fun loc => inRange loc.Point { Lo := some lo, Hi := some hi } = some true) =
        s.locations := by
    rw [List.filter_eq_self]
    intro loc hloc
    simp [hin loc hloc]
  refine ⟨{ HotelIds := s.locations.map location.HotelID }, ?_, rfl, by simp⟩
  rw [BoundedBox_result, hall, matchingIds, hfilter]
  rfl

/-- Witness of C7: a store of three records, identifiers unsorted and one
repeated, inside a rectangle given with its corners in swapped order. -/
theorem BoundedBox_enclosing_all_witness :
    ∃ reply, (geoServer.BoundedBox noTrace 0
        { locations := [
            { HotelID := 5, Point := some { Latitude := fin 1, Longitude := fin 2 } },
            { HotelID := 2, Point := some { Latitude := fin 3, Longitude := fin 0 } },
            { HotelID := 5, Point := some { Latitude := negZero, Longitude := fin 3 } }] }
        () { md := none }
        { Lo := some { Latitude := fin 3, Longitude := fin 3 },
          Hi := some { Latitude := fin 0, Longitude := fin 0 } }).result = some (reply, none) ∧
      reply.HotelIds = [5, 2, 5] ∧ reply.HotelIds.length = 3 :=
  BoundedBox_enclosing_all noTrace 0
    { locations := [
        { HotelID := 5, Point := some { Latitude := fin 1, Longitude := fin 2 } },
        { HotelID := 2, Point := some { Latitude := fin 3, Longitude := fin 0 } },
        { HotelID := 5, Point := some { Latitude := negZero, Longitude := fin 3 } }] }
    () { md := none } { Latitude := fin 3, Longitude := fin 3 }
    { Latitude := fin 0, Longitude := fin 0 }
    (by
      intro loc hloc
      simp only [List.mem_cons, List.mem_singleton, List.not_mem_nil, or_false] at hloc
      rcases hloc with h | h | h <;> subst h
      · exact ⟨_, rfl, by decide⟩
      · exact ⟨_, rfl, by decide⟩
      · exact ⟨_, rfl, by decide⟩)

/-- C8: when `inRange` is false on the point of every record, `BoundedBox`
returns a reply with the empty identifier sequence and a nil error; so it does
on the empty store, for every rectangle. -/
theorem BoundedBox_no_match {W : Type} (ops : TraceOps W) (now : Nat) (s : geoServer)
    (w : W) (ctx : Context) (rect : Rectangle)
    (h : ∀ loc ∈ s.locations, inRange loc.Point rect = some false) :
    (s.BoundedBox ops now w ctx rect).result = some ({ HotelIds := [] }, none) ∧
    ∀ r : Rectangle, (geoServer.BoundedBox ops now { locations := [] } w ctx r).result =
      some ({ HotelIds := [] }, none) := by
  constructor
  · have hall : s.locations.all (fun loc => (inRange loc.Point rect).isSome) = true := by
      rw [List.all_eq_true]
      intro loc hloc
      rw [h loc hloc]
      rfl
    have hfilter : s.locations.filter (fun loc => inRange loc.Point rect = some true) = [] := by
      rw [List.filter_eq_nil_iff]
      intro loc hloc
      simp [h loc hloc]
    rw [BoundedBox_result, hall, matchingIds, hfilter]
    rfl
  · intro r
    rfl

/-- Witness of C8: two records outside the unit square. -/
theorem BoundedBox_no_match_witness :
    (geoServer.BoundedBox noTrace 0
        { locations := [
            { HotelID := 1, Point := some { Latitude := fin 5, Longitude := fin 5 } },
            { HotelID := 2, Point := some { Latitude := nan, Longitude := fin 0 } }] }
        () { md := none }
        { Lo := some { Latitude := fin 0, Longitude := fin 0 },
          Hi := some { Latitude := fin 1, Longitude := fin 1 } }).result =
      some ({ HotelIds := [] }, none) ∧
    ∀ r : Rectangle, (geoServer.BoundedBox noTrace 0 { locations := [] } ()
        { md := none } r).result = some ({ HotelIds := [] }, none) :=
  BoundedBox_no_match noTrace 0
    { locations := [
        { HotelID := 1, Point := some { Latitude := fin 5, Longitude := fin 5 } },
        { HotelID := 2, Point := some { Latitude := nan, Longitude := fin 0 } }] }
    () { md := none }
    { Lo := some { Latitude := fin 0, Longitude := fin 0 },
      Hi := some { Latitude := fin 1, Longitude := fin 1 } }
    (by decide)

/-- C9: what `BoundedBox` returns depends on the store and the rectangle only:
two calls with any two request contexts, clocks, tracing collaborators and
collaborator states return the same result; the call leaves the store as it
was, so the same query run again after it returns the same result again. -/
theorem BoundedBox_context_independent {W1 W2 : Type} (ops1 : TraceOps W1) (ops2 : TraceOps W2)
    (now1 now2 : Nat) (s : geoServer) (w1 : W1) (w2 : W2) (ctx1 ctx2 : Context)
    (rect : Rectangle) :
    (s.BoundedBox ops1 now1 w1 ctx1 rect).result = (s.BoundedBox ops2 now2 w2 ctx2 rect).result ∧
    (s.BoundedBox ops1 now1 w1 ctx1 rect).server = s ∧
    ((s.BoundedBox ops1 now1 w1 ctx1 rect).server.BoundedBox ops1 now2
        (s.BoundedBox ops1 now1 w1 ctx1 rect).world ctx2 rect).result =
      (s.BoundedBox ops1 now1 w1 ctx1 rect).result := by
  refine ⟨?_, BoundedBox_server ops1 now1 s w1 ctx1 rect, ?_⟩
  · rw [BoundedBox_result, BoundedBox_result]
  · rw [BoundedBox_server, BoundedBox_result, BoundedBox_result]

/-- C10: when the normalized bounds of the rectangle `(lo1, hi1)` lie within
those of `(lo2, hi2)` (which leaves no room for a NaN bound), every point
contained in the first is contained in the second, and on every store the
identifier sequence returned for the first is a sublist of the one returned for
the second; both calls return when every record has a point, and neither does
otherwise. -/
theorem BoundedBox_mono (lo1 hi1 lo2 hi2 : Point)
    (hleft : le (Min lo2.Longitude hi2.Longitude) (Min lo1.Longitude hi1.Longitude) = true)
    (hright : le (Max lo1.Longitude hi1.Longitude) (Max lo2.Longitude hi2.Longitude) = true)
    (hbottom : le (Min lo2.Latitude hi2.Latitude) (Min lo1.Latitude hi1.Latitude) = true)
    (htop : le (Max lo1.Latitude hi1.Latitude) (Max lo2.Latitude hi2.Latitude) = true) :
    (∀ p : Point, inRange (some p) { Lo := some lo1, Hi := some hi1 } = some true →
      inRange (some p) { Lo := some lo2, Hi := some hi2 } = some true) ∧
    ∀ (W : Type) (ops : TraceOps W) (now : Nat) (s : geoServer) (w : W) (ctx : Context),
      ((∀ loc ∈ s.locations, loc.Point ≠ none) →
        ∃ r1 r2,
          (s.BoundedBox ops now w ctx { Lo := some lo1, Hi := some hi1 }).result =
            some (r1, none) ∧
          (s.BoundedBox ops now w ctx { Lo := some lo2, Hi := some hi2 }).result =
            some (r2, none) ∧
          r1.HotelIds.Sublist r2.HotelIds) ∧
      ((∃ loc ∈ s.locations, loc.Point = none) →
        (s.BoundedBox ops now w ctx { Lo := some lo1, Hi := some hi1 }).result = none ∧
        (s.BoundedBox ops now w ctx { Lo := some lo2, Hi := some hi2 }).result = none) := by
  have hpt : ∀ p : Option Point, inRange p { Lo := some lo1, Hi := some hi1 } = some true →
      inRange p { Lo := some lo2, Hi := some hi2 } = some true := by
    intro p hp
    cases p with
    | none => simp [inRange] at hp
    | some p =>
      rw [inRange_present] at hp ⊢
      simp only [Option.some.injEq, Bool.and_eq_true] at hp ⊢
      obtain ⟨⟨⟨h1, h2⟩, h3⟩, h4⟩ := hp
      exact ⟨⟨⟨le_trans hleft h1, le_trans h2 hright⟩, le_trans hbottom h3⟩, le_trans h4 htop⟩
  refine ⟨fun p => hpt (some p), ?_⟩
  intro W ops now s w ctx
  constructor
  · intro hpts
    refine ⟨{ HotelIds := matchingIds s.locations { Lo := some lo1, Hi := some hi1 } },
      { HotelIds := matchingIds s.locations { Lo := some lo2, Hi := some hi2 } }, ?_, ?_, ?_⟩
    · rw [BoundedBox_result, all_isSome_of_present _ _ _ hpts]; rfl
    · rw [BoundedBox_result, all_isSome_of_present _ _ _ hpts]; rfl
    · apply List.Sublist.map
      apply List.monotone_filter_right
      intro loc hloc
      simp only [decide_eq_true_eq] at hloc ⊢
      exact hpt _ hloc
  · rintro ⟨loc, hloc, hnone⟩
    have hall : ∀ lo hi : Point, s.locations.all
        (fun loc => (inRange loc.Point { Lo := some lo, Hi := some hi }).isSome) = false := by
      intro lo hi
      rw [List.all_eq_false]
      refine ⟨loc, hloc, ?_⟩
      rw [hnone]
      simp [inRange]
    rw [BoundedBox_result, BoundedBox_result, hall, hall]
    exact ⟨rfl, rfl⟩

/-- Witness of C10: the square from 1 to 2 inside the square from 0 to 3, the
latter given with its corners in swapped order; the store has a record in both,
one in the outer square only, and one with a NaN coordinate. -/
theorem BoundedBox_mono_witness :
    (∀ p : Point, inRange (some p)
        { Lo := some { Latitude := fin 1, Longitude := fin 1 },
          Hi := some { Latitude := fin 2, Longitude := fin 2 } } = some true →
      inRange (some p)
        { Lo := some { Latitude := fin 3, Longitude := fin 3 },
          Hi := some { Latitude := fin 0, Longitude := fin 0 } } = some true) ∧
    ∃ r1 r2,
      (geoServer.BoundedBox noTrace 0
        { locations := [
            { HotelID := 9, Point := some { Latitude := fin 1, Longitude := fin 2 } },
            { HotelID := 4, Point := some { Latitude := fin 3, Longitude := negZero } },
            { HotelID := 6, Point := some { Latitude := nan, Longitude := fin 1 } }] }
        () { md := none }
        { Lo := some { Latitude := fin 1, Longitude := fin 1 },
          Hi := some { Latitude := fin 2, Longitude := fin 2 } }).result = some (r1, none) ∧
      (geoServer.BoundedBox noTrace 0
        { locations := [
            { HotelID := 9, Point := some { Latitude := fin 1, Longitude := fin 2 } },
            { HotelID := 4, Point := some { Latitude := fin 3, Longitude := negZero } },
            { HotelID := 6, Point := some { Latitude := nan, Longitude := fin 1 } }] }
        () { md := none }
        { Lo := some { Latitude := fin 3, Longitude := fin 3 },
          Hi := some { Latitude := fin 0, Longitude := fin 0 } }).result = some (r2, none) ∧
      r1.HotelIds.Sublist r2.HotelIds :=
  ⟨(BoundedBox_mono { Latitude := fin 1, Longitude := fin 1 }
      { Latitude := fin 2, Longitude := fin 2 } { Latitude := fin 3, Longitude := fin 3 }
      { Latitude := fin 0, Longitude := fin 0 }
      (by decide) (by decide) (by decide) (by decide)).1,
   ((BoundedBox_mono { Latitude := fin 1, Longitude := fin 1 }
      { Latitude := fin 2, Longitude := fin 2 } { Latitude := fin 3, Longitude := fin 3 }
      { Latitude := fin 0, Longitude := fin 0 }
      (by decide) (by decide) (by decide) (by decide)).2 Unit noTrace 0
      { locations := [
          { HotelID := 9, Point := some { Latitude := fin 1, Longitude := fin 2 } },
          { HotelID := 4, Point := some { Latitude := fin 3, Longitude := negZero } },
          { HotelID := 6, Point := some { Latitude := nan, Longitude := fin 1 } }] }
      () { md := none }).1 (by decide)⟩

end Geo
